import Mathlib

/-!
Shallow embedding of the commuter-rail sync backend:
the `store` package (SQLite-backed collections of stations and schedules,
`internal/store/store.go`) and the `scrapper` package (station/schedule
synchronization pipeline). Timestamps are modelled as natural numbers
(seconds); the Go zero `time.Time` is modelled as `0`.
-/

namespace Commuter

/-! ## Data model (`internal/store/types.go`) -/

/-- Go `store.Origin`: `{fg_enable, daop}`. -/
structure Origin where
  fgEnable : Int
  daop : Int
deriving DecidableEq, Repr

/-- Go `store.Metadata`: `{active, origin}`. -/
structure Metadata where
  active : Bool
  origin : Origin
deriving DecidableEq, Repr

/-- Go `store.Station`: the `(uid, id, name, type, metadata)` tuple.
`type` is the Go `StationType` string (`"KRL"` or `"LOCAL"`). -/
structure Station where
  uid : String
  id : String
  name : String
  type : String
  metadata : Metadata
deriving DecidableEq, Repr

/-- Go `store.ScheduleOrigin`: `{color}`. -/
structure ScheduleOrigin where
  color : String
deriving DecidableEq, Repr

/-- Go `store.ScheduleMetadata`: `{origin}`. -/
structure ScheduleMetadata where
  origin : ScheduleOrigin
deriving DecidableEq, Repr

/-- Go `store.Schedule`.  `departsAt`/`arrivesAt`/`updatedAt` are
timestamps in seconds; the Go zero `time.Time` is `0`. -/
structure Schedule where
  id : String
  stationId : String
  stationOriginId : String
  stationDestinationId : String
  trainId : String
  line : String
  route : String
  departsAt : Nat
  arrivesAt : Nat
  metadata : ScheduleMetadata
  updatedAt : Nat
deriving DecidableEq, Repr

/-! ## Store (`internal/store/store.go`)

The SQLite database is modelled as two row lists (row order = rowid
order).  A replace runs inside a transaction: `Begin`, a `DELETE`, a
statement `Prepare`, then one `INSERT` per row, then `Commit`; the Go
code returns early (with the deferred `tx.Rollback()` undoing the
transaction) when `Begin`/`DELETE`/`Prepare` fail, and `continue`s past
a failing row `INSERT`.  Environmental failures of the first three steps
are modelled by a `TxFail` oracle; a row `INSERT` fails exactly on a
primary-key conflict (duplicate `uid` for stations, duplicate `id` for
schedules), which is the deterministic SQLite failure mode. -/

/-- The persisted state: the `stations` and `schedules` tables. -/
structure StoreState where
  stations : List Station
  schedules : List Schedule
deriving DecidableEq, Repr

/-- Failure oracle for the environmental failure points of one
collection-replace transaction (`Begin`, `DELETE`, `Prepare`). -/
structure TxFail where
  beginFail : Bool
  deleteFail : Bool
  prepareFail : Bool
deriving DecidableEq, Repr

/-- The no-failure oracle: every transaction step succeeds. -/
def okTx : TxFail := ⟨false, false, false⟩

/-- One `INSERT INTO stations` row: fails (is skipped) on a `uid`
primary-key conflict, otherwise appends the row. -/
def insertStationRow (tbl : List Station) (st : Station) : List Station :=
  if tbl.any (fun r => r.uid = st.uid) then tbl else tbl ++ [st]

/-- One `INSERT INTO schedules` row: fails (is skipped) on an `id`
primary-key conflict, otherwise appends the row. -/
def insertScheduleRow (tbl : List Schedule) (sch : Schedule) : List Schedule :=
  if tbl.any (fun r => r.id = sch.id) then tbl else tbl ++ [sch]

/-- Go `Store.SetStations`: full-collection replace.  `Begin`/`DELETE`/
`Prepare` failures return early with the transaction rolled back (state
unchanged); a failing row insert is skipped (`continue`) and the
transaction still commits. -/
def setStations (f : TxFail) (db : StoreState) (stations : List Station) : StoreState :=
  if f.beginFail then db
  else if f.deleteFail then db
  else if f.prepareFail then db
  else { db with stations := stations.foldl insertStationRow [] }

/-- Go `Store.GetStations`: `SELECT` of every station row. -/
def getStations (db : StoreState) : List Station :=
  db.stations

/-- Go `Store.HasStations`: `COUNT(*) > 0`. -/
def hasStations (db : StoreState) : Bool :=
  db.stations.length > 0

/-- Go `Store.SetSchedules`: per-partition replace.  The `DELETE` clears
only the rows with `station_id = stationID`; inserts take each field from
the `Schedule` record itself (including its `station_id`). -/
def setSchedules (f : TxFail) (db : StoreState) (stationID : String)
    (schedules : List Schedule) : StoreState :=
  if f.beginFail then db
  else if f.deleteFail then db
  else if f.prepareFail then db
  else
    let cleared := db.schedules.filter (fun r => r.stationId ≠ stationID)
    { db with schedules := schedules.foldl insertScheduleRow cleared }

/-- Comparator used to model `ORDER BY departs_at ASC`. -/
def departsLe (a b : Schedule) : Prop :=
  a.departsAt ≤ b.departsAt

instance : DecidableRel departsLe := fun a b => Nat.decLe a.departsAt b.departsAt

instance : IsTotal Schedule departsLe := ⟨fun a b => Nat.le_total a.departsAt b.departsAt⟩

instance : IsTrans Schedule departsLe := ⟨fun _ _ _ hab hbc => Nat.le_trans hab hbc⟩

/-- Go `Store.GetSchedules`: rows with the given `station_id`,
`ORDER BY departs_at ASC` (tie order unspecified in SQLite; the model
uses an insertion sort). -/
def getSchedules (db : StoreState) (stationID : String) : List Schedule :=
  List.insertionSort departsLe (db.schedules.filter (fun r => r.stationId = stationID))

/-- Go `Store.GetRoute`: rows with the given `train_id`,
`ORDER BY departs_at ASC`. -/
def getRoute (db : StoreState) (trainID : String) : List Schedule :=
  List.insertionSort departsLe (db.schedules.filter (fun r => r.trainId = trainID))

/-! ## Remote fetcher (`scrapper.fetch`)

The HTTP exchange is modelled by its observable outcome: either a
transport error or a fully received response (status code and body).
Header and token attachment shape the request, not the result mapping,
and are not modelled. -/

/-- The error taxonomy of `fetch`: a transport error from `client.Do`,
or the `fmt.Errorf("status %d: %s", ...)` error for a response whose
status code is not `http.StatusOK` (200). -/
inductive FetchErr where
  | network (msg : String)
  | httpStatus (code : Nat) (body : String)
deriving DecidableEq, Repr

/-- An HTTP response that arrived: status code and body bytes. -/
structure HttpResp where
  status : Nat
  body : String
deriving DecidableEq, Repr

/-- Go `Scraper.fetch`, response side: transport failure becomes a
network error; `if resp.StatusCode != http.StatusOK` yields the status
error carrying code and body; otherwise the body is returned. -/
def fetch (r : Except String HttpResp) : Except FetchErr String :=
  match r with
  | .error e => .error (.network e)
  | .ok resp =>
    if resp.status ≠ 200 then .error (.httpStatus resp.status resp.body)
    else .ok resp.body

/-! ## Station synchronizer (`scrapper.syncStations`) -/

/-- One record of the upstream `/krl-station` payload:
`{sta_id, sta_name, group_wil, fg_enable}`. -/
structure UpStation where
  staId : String
  staName : String
  groupWil : Int
  fgEnable : Int
deriving DecidableEq, Repr

/-- Go filter condition `len(d.StaID) >= 3 && d.StaID[:3] == "WIL"`
(byte slicing on the ASCII ids, modelled on the character list). -/
def wilStart (s : String) : Bool :=
  decide (3 ≤ s.length) && s.data.take 3 == "WIL".data

/-- Conversion of one kept upstream record into a `Station`:
`UID = "st_krl_" + StaID`, type `StationTypeKRL`, `daop` is `group_wil`
with `0` mapped to `1`. -/
def convertStation (d : UpStation) : Station :=
  { uid := "st_krl_" ++ d.staId
    id := d.staId
    name := d.staName
    type := "KRL"
    metadata :=
      { active := true
        origin :=
          { fgEnable := d.fgEnable
            daop := if d.groupWil = 0 then 1 else d.groupWil } } }

/-- Hardcoded station: Bandara Soekarno Hatta. -/
def bstStation : Station :=
  { uid := "st_krl_bst", id := "BST", name := "BANDARA SOEKARNO HATTA"
    type := "KRL", metadata := ⟨true, ⟨1, 1⟩⟩ }

/-- Hardcoded station: Cikampek. -/
def ckpStation : Station :=
  { uid := "st_krl_ckp", id := "CKP", name := "CIKAMPEK"
    type := "LOCAL", metadata := ⟨true, ⟨1, 1⟩⟩ }

/-- Hardcoded station: Purwakarta. -/
def pwkStation : Station :=
  { uid := "st_krl_pwk", id := "PWK", name := "PURWAKARTA"
    type := "LOCAL", metadata := ⟨true, ⟨1, 2⟩⟩ }

/-- The station list `syncStations` builds from a decoded upstream
payload: the loop skips `WIL`-filtered records, converts the rest in
order, then appends the three hardcoded stations. -/
def buildStations (data : List UpStation) : List Station :=
  (data.foldl (fun acc d => if wilStart d.staId then acc else acc ++ [convertStation d]) [])
    ++ [bstStation, ckpStation, pwkStation]

/-! ## Name resolver and schedule synchronizer -/

/-- Go `Scraper.normalizeStationName`: the fixed lookup table of known
upstream name irregularities; names not in the table are unchanged. -/
def normalizeStationName (name : String) : String :=
  if name = "TANJUNGPRIUK" then "TANJUNG PRIOK"
  else if name = "JAKARTAKOTA" then "JAKARTA KOTA"
  else if name = "KAMPUNGBANDAN" then "KAMPUNG BANDAN"
  else if name = "TANAHABANG" then "TANAH ABANG"
  else if name = "PARUNGPANJANG" then "PARUNG PANJANG"
  else if name = "BANDARASOEKARNOHATTA" then "BANDARA SOEKARNO HATTA"
  else name

/-- The `stationNameMap` built in `syncSchedules`: a Go map written by
iterating the station list (`map[st.Name] = st.ID`, later entries
overriding), read with the zero value `""` for a missing key. -/
def buildNameMap (stations : List Station) : String → String :=
  stations.foldl (fun acc st => fun n => if n = st.name then st.id else acc n)
    (fun _ => "")

/-- One record of the upstream `/schedules` payload. -/
structure UpSchedule where
  trainId : String
  kaName : String
  routeName : String
  dest : String
  timeEst : String
  color : String
  destTime : String
deriving DecidableEq, Repr

/-- Digit value of an ASCII digit character. -/
def digitVal (c : Char) : Nat := c.toNat - 48

/-- Go `time` package number scan for a non-zero-padded layout element
(`"15"`): one or two leading digits. -/
def getnum (cs : List Char) : Option (Nat × List Char) :=
  match cs with
  | [] => none
  | c1 :: rest =>
    if c1.isDigit then
      match rest with
      | c2 :: rest2 =>
        if c2.isDigit then some (digitVal c1 * 10 + digitVal c2, rest2)
        else some (digitVal c1, rest)
      | [] => some (digitVal c1, [])
    else none

/-- Go `time` package number scan for a zero-padded layout element
(`"04"`, `"05"`): exactly two digits. -/
def getnum2 (cs : List Char) : Option (Nat × List Char) :=
  match cs with
  | c1 :: c2 :: rest =>
    if c1.isDigit && c2.isDigit then some (digitVal c1 * 10 + digitVal c2, rest)
    else none
  | _ => none

/-- Go `time.Parse("15:04", s)`: hour (1-2 digits, `< 24`), `':'`,
minute (2 digits, `< 60`), end of input. -/
def parseHM (s : String) : Option (Nat × Nat) :=
  match getnum s.data with
  | some (h, rest) =>
    match rest with
    | ':' :: rest2 =>
      match getnum2 rest2 with
      | some (m, []) => if h < 24 && m < 60 then some (h, m) else none
      | _ => none
    | _ => none
  | none => none

/-- Go `time.Parse("15:04:05", s)`: hour, `':'`, minute, `':'`, second
(2 digits, `< 60`), end of input. -/
def parseHMS (s : String) : Option (Nat × Nat × Nat) :=
  match getnum s.data with
  | some (h, rest) =>
    match rest with
    | ':' :: rest2 =>
      match getnum2 rest2 with
      | some (m, rest3) =>
        match rest3 with
        | ':' :: rest4 =>
          match getnum2 rest4 with
          | some (sec, []) =>
            if h < 24 && m < 60 && sec < 60 then some (h, m, sec) else none
          | _ => none
        | _ => none
      | none => none
    | _ => none
  | none => none

/-- Go `Scraper.parseTime`: try `"15:04"`, then `"15:04:05"`; on a match
combine today's calendar date (`todayBase` = seconds at today's local
midnight) with the parsed time of day; otherwise return the zero
`time.Time` (modelled as `0`). -/
def parseTime (todayBase : Nat) (s : String) : Nat :=
  match parseHM s with
  | some (h, m) => todayBase + h * 3600 + m * 60
  | none =>
    match parseHMS s with
    | some (h, m, sec) => todayBase + h * 3600 + m * 60 + sec
    | none => 0

/-- Go `strings.Split(s, "-")`: split on every `'-'`, keeping empty
segments (`n` separators yield `n+1` segments). -/
def splitDash : List Char → List (List Char)
  | [] => [[]]
  | c :: rest =>
    if c = '-' then [] :: splitDash rest
    else
      match splitDash rest with
      | [] => [[c]]
      | p :: ps => (c :: p) :: ps

/-- Go `strings.TrimSpace`: drop whitespace from both ends. -/
def trimChars (cs : List Char) : List Char :=
  ((cs.dropWhile Char.isWhitespace).reverse.dropWhile Char.isWhitespace).reverse

/-- One loop iteration of `syncScheduleForStation`: split the route name
on `"-"` (taking the first two segments, trimmed, when there are at
least two; otherwise the whole route string for both), normalize,
resolve through the name map, and build the `Schedule` record. -/
def buildSchedule (nameMap : String → String) (stationID : String)
    (todayBase nowTs : Nat) (d : UpSchedule) : Schedule :=
  let parts := splitDash d.routeName.data
  let originName0 :=
    if 2 ≤ parts.length then (trimChars (parts.getD 0 [])).asString else d.routeName
  let destName0 :=
    if 2 ≤ parts.length then (trimChars (parts.getD 1 [])).asString else d.routeName
  let originName := normalizeStationName originName0
  let destName := normalizeStationName destName0
  { id := "sc_krl_" ++ stationID ++ "_" ++ d.trainId
    stationId := stationID
    stationOriginId := nameMap originName
    stationDestinationId := nameMap destName
    trainId := d.trainId
    line := d.kaName
    route := d.routeName
    departsAt := parseTime todayBase d.timeEst
    arrivesAt := parseTime todayBase d.destTime
    metadata := ⟨⟨d.color⟩⟩
    updatedAt := nowTs }

/-- The schedule list built by `syncScheduleForStation` from a decoded
payload: one record appended per upstream record. -/
def buildSchedules (nameMap : String → String) (stationID : String)
    (todayBase nowTs : Nat) (data : List UpSchedule) : List Schedule :=
  data.map (buildSchedule nameMap stationID todayBase nowTs)

/-! ## The sync pipeline -/

/-- The upstream world one sync pass observes: the decoded station
payload (`none` = fetch or decode failure), the decoded schedule payload
per station id (`none` = fetch or decode failure for that station), and
the current date/time. -/
structure Env where
  stationData : Option (List UpStation)
  schedData : String → Option (List UpSchedule)
  todayBase : Nat
  nowTs : Nat

/-- Go `Scraper.syncStations`: on fetch/decode failure log and return
(no write); on success replace the station collection with the built
list. -/
def syncStationsOp (env : Env) (db : StoreState) : StoreState :=
  match env.stationData with
  | none => db
  | some data => setStations okTx db (buildStations data)

/-- Go `Scraper.syncScheduleForStation`: on fetch/decode failure log and
return (partition untouched); on success replace this station's
partition with the built list (even if empty). -/
def syncScheduleForStation (env : Env) (nameMap : String → String)
    (db : StoreState) (stationID : String) : StoreState :=
  match env.schedData stationID with
  | none => db
  | some data =>
    setSchedules okTx db stationID
      (buildSchedules nameMap stationID env.todayBase env.nowTs data)

/-- Go `Scraper.syncSchedules`: read the stations, build the name map,
and run the per-station sync for every station.  The fan-out completion
order is nondeterministic in the source; partitions are disjoint, and
the model fixes the station-list order. -/
def syncSchedulesOp (env : Env) (db : StoreState) : StoreState :=
  let stations := getStations db
  let nameMap := buildNameMap stations
  stations.foldl (fun acc st => syncScheduleForStation env nameMap acc st.id) db

/-- One full pipeline pass: station sync followed by schedule sync. -/
def pipeOp (env : Env) (db : StoreState) : StoreState :=
  syncSchedulesOp env (syncStationsOp env db)

/-! ## Sync coordinator (`Scraper.SyncAll`)

`SyncAll` guards the pipeline with `mu.TryLock()`: if the lock is
already held it logs a warning and returns (no error value exists — the
function returns nothing); otherwise it runs `syncStations`, then
`syncSchedules`, then releases the lock (`defer mu.Unlock()`).  Two
invocations are modelled as two threads, each executing the atomic
steps try-lock, station sync, schedule sync, unlock; an interleaving is
a list of thread choices. -/

/-- Program counter of one `SyncAll` invocation. -/
inductive SyncPC where
  | ready
  | acquired
  | stationsDone
  | schedsDone
  | done
deriving DecidableEq, Repr

/-- One `SyncAll` invocation: its program counter, and whether its
try-lock found the lock held (the call was dropped). -/
structure SyncThread where
  pc : SyncPC
  dropped : Bool
deriving DecidableEq, Repr

/-- The coordinator system: the mutex flag, the store, the number of
completed pipeline executions, and the two invocations. -/
structure SyncSys where
  locked : Bool
  db : StoreState
  runs : Nat
  tA : SyncThread
  tB : SyncThread
deriving Repr

/-- One atomic step of the invocation selected by `who` (`false` = A,
`true` = B).  `ready`: `TryLock` — if held, warn and return (thread
done, dropped, nothing else touched); else acquire.  `acquired`: run
`syncStations`.  `stationsDone`: run `syncSchedules`, completing one
pipeline execution.  `schedsDone`: `Unlock`.  `done`: no-op. -/
def syncStep (env : Env) (s : SyncSys) (who : Bool) : SyncSys :=
  let t := if who then s.tB else s.tA
  let put := fun (s' : SyncSys) (t' : SyncThread) =>
    if who then { s' with tB := t' } else { s' with tA := t' }
  match t.pc with
  | .ready =>
    if s.locked then put s ⟨.done, true⟩
    else put { s with locked := true } ⟨.acquired, t.dropped⟩
  | .acquired => put { s with db := syncStationsOp env s.db } ⟨.stationsDone, t.dropped⟩
  | .stationsDone =>
    put { s with db := syncSchedulesOp env s.db, runs := s.runs + 1 } ⟨.schedsDone, t.dropped⟩
  | .schedsDone => put { s with locked := false } ⟨.done, t.dropped⟩
  | .done => s

/-- Run an interleaving: execute the listed thread choices in order. -/
def syncRun (env : Env) (s : SyncSys) (sched : List Bool) : SyncSys :=
  sched.foldl (syncStep env) s

/-- The initial system for a store state: unlocked, no pipeline run yet,
both invocations at their entry point. -/
def syncInit (db : StoreState) : SyncSys :=
  ⟨false, db, 0, ⟨.ready, false⟩, ⟨.ready, false⟩⟩

/-- An invocation holds the lock while between acquire and release. -/
def inCrit (t : SyncThread) : Bool :=
  t.pc ≠ .ready && t.pc ≠ .done

/-- Pipeline executions contributed by one invocation so far. -/
def runsOf (t : SyncThread) : Nat :=
  if t.pc = .schedsDone || (t.pc = .done && !t.dropped) then 1 else 0

/-- Reachability invariant of the coordinator: the flag is held exactly
when some invocation is between acquire and release, never both at
once; a dropped invocation has returned; an invocation holding the
lock was not dropped; and the run counter tallies per-thread
progress. -/
def SyncInv (s : SyncSys) : Prop :=
  s.locked = (inCrit s.tA || inCrit s.tB)
  ∧ ¬(inCrit s.tA = true ∧ inCrit s.tB = true)
  ∧ (s.tA.dropped = true → s.tA.pc = .done)
  ∧ (s.tB.dropped = true → s.tB.pc = .done)
  ∧ (inCrit s.tA = true → s.tA.dropped = false)
  ∧ (inCrit s.tB = true → s.tB.dropped = false)
  ∧ s.runs = runsOf s.tA + runsOf s.tB

/-! ### Coordinator invariants -/

theorem syncInv_init (db : StoreState) : SyncInv (syncInit db) := by
  simp [SyncInv, syncInit, inCrit, runsOf]

theorem syncInv_step (env : Env) (s : SyncSys) (who : Bool)
    (h : SyncInv s) : SyncInv (syncStep env s who) := by
  obtain ⟨h1, h2, h3, h4, h5, h6, h7⟩ := h
  cases s with
  | mk locked db runs tA tB =>
    cases tA with
    | mk pcA dA =>
      cases tB with
      | mk pcB dB =>
        cases who <;> cases pcA <;> cases pcB <;> cases locked <;>
          cases dA <;> cases dB <;>
          simp_all [syncStep, SyncInv, inCrit, runsOf]

theorem syncInv_run (env : Env) (sched : List Bool) (s : SyncSys)
    (h : SyncInv s) : SyncInv (syncRun env s sched) := by
  induction sched generalizing s with
  | nil => exact h
  | cons w rest ih => exact ih _ (syncInv_step env s w h)

theorem syncStep_keeps_A_active (env : Env) (s : SyncSys) (who : Bool)
    (h : s.tA.dropped = false ∧ s.tA.pc ≠ .ready) :
    (syncStep env s who).tA.dropped = false ∧ (syncStep env s who).tA.pc ≠ .ready := by
  obtain ⟨hd, hp⟩ := h
  cases s with
  | mk locked db runs tA tB =>
    cases tA with
    | mk pcA dA =>
      cases tB with
      | mk pcB dB =>
        cases who <;> cases pcA <;> cases pcB <;> cases locked <;>
          simp_all [syncStep]

theorem syncRun_keeps_A_active (env : Env) (sched : List Bool) (s : SyncSys)
    (h : s.tA.dropped = false ∧ s.tA.pc ≠ .ready) :
    (syncRun env s sched).tA.dropped = false ∧ (syncRun env s sched).tA.pc ≠ .ready := by
  induction sched generalizing s with
  | nil => exact h
  | cons w rest ih => exact ih _ (syncStep_keeps_A_active env s w h)

theorem syncStep_keeps_B_done (env : Env) (s : SyncSys) (who : Bool)
    (h : s.tB.pc = .done) : (syncStep env s who).tB = s.tB := by
  cases s with
  | mk locked db runs tA tB =>
    cases tA with
    | mk pcA dA =>
      cases tB with
      | mk pcB dB =>
        cases who <;> cases pcA <;> cases pcB <;> cases locked <;>
          simp_all [syncStep]

theorem syncRun_keeps_B_done (env : Env) (sched : List Bool) (s : SyncSys)
    (h : s.tB.pc = .done) : (syncRun env s sched).tB = s.tB := by
  induction sched generalizing s with
  | nil => rfl
  | cons w rest ih =>
    have hstep := syncStep_keeps_B_done env s w h
    have := ih (syncStep env s w) (by rw [hstep]; exact h)
    simpa [syncRun, hstep] using this

/-! ## Claim theorems -/

/-- C1: for two concurrent invocations of `SyncAll` — the second tries
its lock while the first holds it — exactly one pipeline execution
(station sync followed by schedule sync) takes place: the invocation
finding the lock held returns immediately (its step ends the thread)
without touching the store, the run counter, or the lock, and it stays
returned (dropped, not queued); once the first invocation has returned,
exactly one pipeline execution has happened.  `SyncAll` has no error
channel: `syncStep` is total and returns only the new system state. -/
theorem syncAll_single_flight (env : Env) (db : StoreState) (s1 : List Bool)
    (hlock : (syncRun env (syncInit db) s1).locked = true)
    (hready : (syncRun env (syncInit db) s1).tB.pc = .ready) :
    (syncStep env (syncRun env (syncInit db) s1) true).tB = ⟨.done, true⟩
    ∧ (syncStep env (syncRun env (syncInit db) s1) true).db
        = (syncRun env (syncInit db) s1).db
    ∧ (syncStep env (syncRun env (syncInit db) s1) true).runs
        = (syncRun env (syncInit db) s1).runs
    ∧ (syncStep env (syncRun env (syncInit db) s1) true).locked = true
    ∧ ∀ rest : List Bool,
        (syncRun env (syncStep env (syncRun env (syncInit db) s1) true) rest).tA.pc = .done →
        (syncRun env (syncStep env (syncRun env (syncInit db) s1) true) rest).runs = 1
        ∧ (syncRun env (syncStep env (syncRun env (syncInit db) s1) true) rest).tB
            = ⟨.done, true⟩ := by
  set mid := syncRun env (syncInit db) s1 with hmid
  have hinv : SyncInv mid := syncInv_run env s1 _ (syncInv_init db)
  obtain ⟨h1, h2, h3, h4, h5, h6, h7⟩ := hinv
  -- the second invocation is not in its critical section, so the first is
  have hBcrit : inCrit mid.tB = false := by simp [inCrit, hready]
  have hAcrit : inCrit mid.tA = true := by
    rcases hA : inCrit mid.tA with _ | _
    · rw [hlock, hA, hBcrit] at h1; exact absurd h1 (by simp)
    · rfl
  have hAdrop : mid.tA.dropped = false := h5 hAcrit
  have hAready : mid.tA.pc ≠ .ready := by
    intro hc; rw [inCrit, hc] at hAcrit; simp at hAcrit
  -- the second invocation's try-lock step: dropped, nothing else changed
  have hBstep : syncStep env mid true = { mid with tB := ⟨.done, true⟩ } := by
    rw [syncStep]; simp [hready, hlock]
  refine ⟨by rw [hBstep], by rw [hBstep], by rw [hBstep], by rw [hBstep]; exact hlock, ?_⟩
  intro rest hAdone
  set fin := syncRun env (syncStep env mid true) rest with hfin
  have hA2 : (syncStep env mid true).tA.dropped = false ∧ (syncStep env mid true).tA.pc ≠ .ready := by
    rw [hBstep]; exact ⟨hAdrop, hAready⟩
  have hAfin : fin.tA.dropped = false ∧ fin.tA.pc ≠ .ready :=
    syncRun_keeps_A_active env rest _ hA2
  have hBfin : fin.tB = ⟨.done, true⟩ := by
    have : (syncStep env mid true).tB.pc = .done := by rw [hBstep]
    have hkeep := syncRun_keeps_B_done env rest _ this
    rw [hfin, hkeep, hBstep]
  have hfininv : SyncInv fin :=
    syncInv_run env rest _ (syncInv_step env mid true
      ⟨h1, h2, h3, h4, h5, h6, h7⟩)
  obtain ⟨_, _, _, _, _, _, g7⟩ := hfininv
  refine ⟨?_, hBfin⟩
  rw [g7]
  have hrA : runsOf fin.tA = 1 := by simp [runsOf, hAdone, hAfin.1]
  have hrB : runsOf fin.tB = 0 := by rw [hBfin]; simp [runsOf]
  rw [hrA, hrB]

/-- C1 witness: thread A acquires the lock; thread B invokes `SyncAll`
while A holds it and is dropped with the store untouched; after A
finishes, exactly one pipeline has run. -/
theorem syncAll_single_flight_witness :
    ((syncRun ⟨none, fun _ => none, 0, 0⟩ (syncInit ⟨[], []⟩) [false]).locked = true)
    ∧ (syncRun ⟨none, fun _ => none, 0, 0⟩
        (syncStep ⟨none, fun _ => none, 0, 0⟩
          (syncRun ⟨none, fun _ => none, 0, 0⟩ (syncInit ⟨[], []⟩) [false]) true)
        [false, false, false]).runs = 1 := by
  have h := syncAll_single_flight ⟨none, fun _ => none, 0, 0⟩ ⟨[], []⟩ [false]
    (by decide) (by decide)
  exact ⟨by decide, (h.2.2.2.2 [false, false, false] (by decide)).1⟩

/-! ### Helper lemmas for the store claims -/

theorem string_append_left_cancel {p a b : String} (h : p ++ a = p ++ b) : a = b := by
  apply String.ext
  have := congrArg String.data h
  rw [String.data_append, String.data_append] at this
  exact List.append_cancel_left this

theorem foldl_insertStationRow_of_nodup (ss : List Station) (acc : List Station)
    (h : (((acc ++ ss).map Station.uid)).Nodup) :
    ss.foldl insertStationRow acc = acc ++ ss := by
  induction ss generalizing acc with
  | nil => simp
  | cons s rest ih =>
    have hnew : insertStationRow acc s = acc ++ [s] := by
      rw [insertStationRow, if_neg]
      simp only [List.any_eq_true, not_exists, not_and]
      intro r hr
      have hne : Station.uid r ≠ Station.uid s := by
        intro hc
        have hh : (acc.map Station.uid ++ (s.uid :: rest.map Station.uid)).Nodup := by
          simpa using h
        have h1 : r.uid ∈ acc.map Station.uid := List.mem_map_of_mem _ hr
        have h2 : r.uid ∈ s.uid :: rest.map Station.uid := by
          rw [hc]; exact List.mem_cons_self _ _
        exact (List.nodup_append.mp hh).2.2 h1 h2
      simpa using hne
    rw [List.foldl_cons, hnew, ih (acc ++ [s]) (by simpa using h)]
    simp

theorem foldl_insertScheduleRow_filter (other sid : String) (ho : other ≠ sid)
    (schs : List Schedule) (base : List Schedule)
    (h : ∀ sch ∈ schs, sch.stationId = sid) :
    (schs.foldl insertScheduleRow base).filter (fun r => r.stationId = other)
      = base.filter (fun r => r.stationId = other) := by
  induction schs generalizing base with
  | nil => rfl
  | cons sch rest ih =>
    rw [List.foldl_cons, ih _ (fun x hx => h x (List.mem_cons_of_mem _ hx))]
    rw [insertScheduleRow]
    split
    · rfl
    · rw [List.filter_append]
      have hcn : sch.stationId ≠ other := by
        rw [h sch (List.mem_cons_self _ _)]
        exact fun hc => ho hc.symm
      simp [hcn]

/-- C2 counterexample: with every transaction step succeeding, a row
insert that fails on a `uid` primary-key conflict (the duplicated uid
`"st_krl_A"`) is skipped and the replace still commits, so the prior
collection (one station with uid `"st_krl_X"`) is not preserved and a
partial write is committed, contrary to the claim. -/
theorem setStations_rowfail_cex :
    (setStations okTx
        ⟨[⟨"st_krl_X", "X", "XST", "KRL", ⟨true, ⟨1, 1⟩⟩⟩], []⟩
        [⟨"st_krl_A", "A", "AST", "KRL", ⟨true, ⟨1, 1⟩⟩⟩,
         ⟨"st_krl_A", "A2", "A2ST", "KRL", ⟨true, ⟨1, 1⟩⟩⟩]).stations
      = [⟨"st_krl_A", "A", "AST", "KRL", ⟨true, ⟨1, 1⟩⟩⟩]
    ∧ (setStations okTx
        ⟨[⟨"st_krl_X", "X", "XST", "KRL", ⟨true, ⟨1, 1⟩⟩⟩], []⟩
        [⟨"st_krl_A", "A", "AST", "KRL", ⟨true, ⟨1, 1⟩⟩⟩,
         ⟨"st_krl_A", "A2", "A2ST", "KRL", ⟨true, ⟨1, 1⟩⟩⟩]).stations
      ≠ [⟨"st_krl_X", "X", "XST", "KRL", ⟨true, ⟨1, 1⟩⟩⟩] := by
  constructor
  · decide
  · decide

/-- C2 (amended): a transaction `Begin`, `DELETE`, or statement
`Prepare` failure aborts the replace (`SetStations` or `SetSchedules`)
with the transaction rolled back and the prior collection state fully
preserved; no error is surfaced to any caller (the operations return
only the new state).  A failing row insert, by contrast, is skipped
(`continue`) and the transaction still commits the remaining rows. -/
theorem setReplace_envfail_preserves (f : TxFail) (db : StoreState)
    (ss : List Station) (sid : String) (schs : List Schedule)
    (h : f.beginFail = true ∨ f.deleteFail = true ∨ f.prepareFail = true) :
    setStations f db ss = db ∧ setSchedules f db sid schs = db := by
  obtain ⟨b, d, p⟩ := f
  cases b <;> cases d <;> cases p <;>
    simp_all [setStations, setSchedules]

/-- C2 witness: a replace whose transaction `Begin` fails leaves a
concrete one-station store unchanged. -/
theorem setReplace_envfail_preserves_witness :
    setStations ⟨true, false, false⟩
        ⟨[⟨"st_krl_X", "X", "XST", "KRL", ⟨true, ⟨1, 1⟩⟩⟩], []⟩
        [⟨"st_krl_A", "A", "AST", "KRL", ⟨true, ⟨1, 1⟩⟩⟩]
      = ⟨[⟨"st_krl_X", "X", "XST", "KRL", ⟨true, ⟨1, 1⟩⟩⟩], []⟩ :=
  (setReplace_envfail_preserves ⟨true, false, false⟩
    ⟨[⟨"st_krl_X", "X", "XST", "KRL", ⟨true, ⟨1, 1⟩⟩⟩], []⟩
    [⟨"st_krl_A", "A", "AST", "KRL", ⟨true, ⟨1, 1⟩⟩⟩] "S" []
    (Or.inl rfl)).1

/-- C5 counterexample: a 204 response — a 2xx status — does not return
the body: `fetch` compares against 200 exactly and yields the status
error, contrary to the claim that every 2xx response yields the body. -/
theorem fetch_2xx_cex :
    fetch (.ok ⟨204, "no content"⟩) = .error (.httpStatus 204 "no content")
    ∧ (200 ≤ 204 ∧ 204 < 300) := by
  constructor
  · rfl
  · decide

/-- C5 (amended): `fetch` returns the response body exactly when the
response arrived with status 200 (`http.StatusOK`); every response with
any other status — including other 2xx codes — yields an `HTTPStatus`
error carrying the code and the body, and a transport failure yields a
network error. -/
theorem fetch_status_spec (r : Except String HttpResp) :
    (∀ b, fetch r = .ok b ↔ r = .ok ⟨200, b⟩)
    ∧ (∀ code body, r = .ok ⟨code, body⟩ → code ≠ 200 →
        fetch r = .error (.httpStatus code body))
    ∧ (∀ e, r = .error e → fetch r = .error (.network e)) := by
  refine ⟨fun b => ?_, fun code body hr hc => ?_, fun e hr => ?_⟩
  · cases r with
    | error e => simp [fetch]
    | ok resp =>
      cases resp with
      | mk status body =>
        by_cases h : status = 200 <;> simp [fetch, h]
  · subst hr; simp [fetch, hc]
  · subst hr; rfl

/-- C5 witness: a 404 response yields the status error with its code
and body. -/
theorem fetch_status_spec_witness :
    fetch (.ok ⟨404, "not found"⟩) = .error (.httpStatus 404 "not found") :=
  (fetch_status_spec (.ok ⟨404, "not found"⟩)).2.1 404 "not found" rfl (by decide)

/-- C9: writing a station set whose uids are pairwise distinct and
reading it back yields the same set of `(uid, id, name, type, metadata)`
tuples — the read-back list is a permutation of the written list, so the
result is independent of the order of both lists. -/
theorem setStations_roundTrip (db : StoreState) (ss : List Station)
    (h : (ss.map Station.uid).Nodup) :
    (getStations (setStations okTx db ss)).Perm ss := by
  have heq : ss.foldl insertStationRow [] = [] ++ ss :=
    foldl_insertStationRow_of_nodup ss [] (by simpa using h)
  simp only [getStations, setStations, okTx]
  rw [if_neg (by simp), if_neg (by simp), if_neg (by simp)]
  rw [heq]
  simp

/-- C9 witness: a two-station set with distinct uids round-trips. -/
theorem setStations_roundTrip_witness :
    (getStations (setStations okTx ⟨[], []⟩
        [⟨"st_krl_A", "A", "AST", "KRL", ⟨true, ⟨1, 1⟩⟩⟩,
         ⟨"st_krl_B", "B", "BST2", "KRL", ⟨true, ⟨1, 2⟩⟩⟩])).Perm
      [⟨"st_krl_A", "A", "AST", "KRL", ⟨true, ⟨1, 1⟩⟩⟩,
       ⟨"st_krl_B", "B", "BST2", "KRL", ⟨true, ⟨1, 2⟩⟩⟩] :=
  setStations_roundTrip ⟨[], []⟩
    [⟨"st_krl_A", "A", "AST", "KRL", ⟨true, ⟨1, 1⟩⟩⟩,
     ⟨"st_krl_B", "B", "BST2", "KRL", ⟨true, ⟨1, 2⟩⟩⟩] (by decide)

/-- C10 counterexample: `SetSchedules` inserts each record's own
`station_id` field; replacing station `"A"`'s partition with a record
whose `station_id` is `"B"` changes station `"B"`'s partition, contrary
to the claim that only the named partition is modified. -/
theorem setSchedules_frame_cex :
    ((setSchedules okTx ⟨[], []⟩ "A"
        [⟨"sc1", "B", "", "", "t", "l", "r", 0, 0, ⟨⟨""⟩⟩, 0⟩]).schedules.filter
      (fun r => r.stationId = "B"))
    ≠ ((⟨[], []⟩ : StoreState).schedules.filter (fun r => r.stationId = "B")) := by
  decide

/-- C10 (amended): when every record in the list carries the partition's
own station id — as every pipeline call does — `SetSchedules(stationID,
schedules)` modifies only that partition: for every other station id the
rows with that `station_id` are unchanged, whether the transaction
aborts early or commits. -/
theorem setSchedules_frame (f : TxFail) (db : StoreState) (sid : String)
    (schs : List Schedule) (h : ∀ sch ∈ schs, sch.stationId = sid)
    (other : String) (ho : other ≠ sid) :
    ((setSchedules f db sid schs).schedules.filter (fun r => r.stationId = other))
      = db.schedules.filter (fun r => r.stationId = other) := by
  by_cases hb : f.beginFail = true
  · simp [setSchedules, hb]
  · by_cases hd : f.deleteFail = true
    · simp [setSchedules, hb, hd]
    · by_cases hp : f.prepareFail = true
      · simp [setSchedules, hb, hd, hp]
      · simp only [setSchedules, hb, hd, hp, Bool.false_eq_true, if_false]
        rw [foldl_insertScheduleRow_filter other sid ho schs _ h]
        rw [List.filter_filter]
        apply List.filter_congr
        intro x _
        by_cases hx : x.stationId = other
        · have : x.stationId ≠ sid := by rw [hx]; exact ho
          simp [hx, this, ho]
        · simp [hx]

/-- C10 witness: writing station `"A"`'s partition with a matching
record leaves station `"B"`'s (nonempty) partition unchanged. -/
theorem setSchedules_frame_witness :
    ((setSchedules okTx
        ⟨[], [⟨"scB", "B", "", "", "t", "l", "r", 5, 6, ⟨⟨""⟩⟩, 0⟩]⟩ "A"
        [⟨"scA", "A", "", "", "t", "l", "r", 1, 2, ⟨⟨""⟩⟩, 0⟩]).schedules.filter
      (fun r => r.stationId = "B"))
    = ((⟨[], [⟨"scB", "B", "", "", "t", "l", "r", 5, 6, ⟨⟨""⟩⟩, 0⟩]⟩ :
        StoreState).schedules.filter (fun r => r.stationId = "B")) :=
  setSchedules_frame okTx
    ⟨[], [⟨"scB", "B", "", "", "t", "l", "r", 5, 6, ⟨⟨""⟩⟩, 0⟩]⟩ "A"
    [⟨"scA", "A", "", "", "t", "l", "r", 1, 2, ⟨⟨""⟩⟩, 0⟩]
    (by intro sch hs; simp at hs; subst hs; rfl) "B" (by decide)

/-! ### Helper lemmas for the station-synchronizer claims -/

theorem wilStart_iff (s : String) : wilStart s = true ↔ "WIL".data <+: s.data := by
  rw [wilStart]
  simp only [Bool.and_eq_true, decide_eq_true_eq, beq_iff_eq]
  constructor
  · rintro ⟨-, htake⟩
    rw [List.prefix_iff_eq_take]
    exact htake.symm
  · intro hpre
    have htake := List.prefix_iff_eq_take.mp hpre
    refine ⟨?_, htake.symm⟩
    have hlen : ("WIL".data).length ≤ s.data.length := hpre.length_le
    have h3 : ("WIL".data).length = 3 := rfl
    have hsl : s.length = s.data.length := rfl
    rw [h3] at hlen
    rw [hsl]
    exact hlen

theorem buildStations_loop (data : List UpStation) (acc : List Station) :
    data.foldl (fun acc d => if wilStart d.staId then acc else acc ++ [convertStation d]) acc
      = acc ++ (data.filter (fun d => !wilStart d.staId)).map convertStation := by
  induction data generalizing acc with
  | nil => simp
  | cons d rest ih =>
    by_cases hw : wilStart d.staId = true
    · rw [List.foldl_cons, if_pos hw, ih acc, List.filter_cons_of_neg (by simp [hw])]
    · rw [List.foldl_cons, if_neg hw, ih (acc ++ [convertStation d]),
        List.filter_cons_of_pos (by simp_all), List.map_cons, List.append_assoc]
      rfl

/-- C3: after a successful `syncStations` run (fetch and decode both
succeed), the collection written to the store is exactly the upstream
records whose identifier does not start with `"WIL"`, converted in
order — with `daop` equal to the upstream area code except that `0` is
stored as `1` — followed by the three manually-defined entries; no
station whose upstream identifier starts with `"WIL"` appears. -/
theorem syncStations_spec (env : Env) (db : StoreState) (data : List UpStation)
    (hsucc : env.stationData = some data) :
    syncStationsOp env db = setStations okTx db (buildStations data)
    ∧ buildStations data
        = (data.filter (fun u => !(("WIL".data).isPrefixOf u.staId.data))).map convertStation
            ++ [bstStation, ckpStation, pwkStation]
    ∧ (∀ st ∈ buildStations data, ¬ ("WIL".data <+: st.id.data))
    ∧ (∀ u ∈ data, u.groupWil = 0 → (convertStation u).metadata.origin.daop = 1)
    ∧ (∀ u ∈ data, u.groupWil ≠ 0 →
        (convertStation u).metadata.origin.daop = u.groupWil) := by
  have hfilter :
      data.filter (fun d => !wilStart d.staId)
        = data.filter (fun u => !(("WIL".data).isPrefixOf u.staId.data)) := by
    apply List.filter_congr
    intro u _
    have h1 : wilStart u.staId = ("WIL".data).isPrefixOf u.staId.data := by
      rcases hw : wilStart u.staId with _ | _
      · rcases hp : ("WIL".data).isPrefixOf u.staId.data with _ | _
        · rfl
        · exfalso
          have := (wilStart_iff u.staId).mpr (List.isPrefixOf_iff_prefix.mp hp)
          rw [hw] at this; exact Bool.false_ne_true this
      · have := List.isPrefixOf_iff_prefix.mpr ((wilStart_iff u.staId).mp hw)
        exact this.symm
    rw [h1]
  have hbuild : buildStations data
      = (data.filter (fun u => !(("WIL".data).isPrefixOf u.staId.data))).map convertStation
          ++ [bstStation, ckpStation, pwkStation] := by
    rw [buildStations, buildStations_loop, hfilter]
    simp
  refine ⟨by simp [syncStationsOp, hsucc], hbuild, ?_, ?_, ?_⟩
  · intro st hst
    rw [hbuild] at hst
    rcases List.mem_append.mp hst with hst | hst
    · obtain ⟨u, hu, rfl⟩ := List.mem_map.mp hst
      have hcond := List.of_mem_filter hu
      simp only [Bool.not_eq_true'] at hcond
      intro hpre
      have hid : (convertStation u).id = u.staId := rfl
      rw [hid] at hpre
      have hT : ("WIL".data).isPrefixOf u.staId.data = true :=
        List.isPrefixOf_iff_prefix.mpr hpre
      rw [hT] at hcond
      simp at hcond
    · fin_cases hst <;> decide
  · intro u _ hz
    simp [convertStation, hz]
  · intro u _ hz
    simp [convertStation, hz]

/-- C3 witness: a concrete upstream payload with a `WIL` grouping row, a
zero area code, and a nonzero area code is written as the claim
describes. -/
theorem syncStations_spec_witness :
    syncStationsOp ⟨some [⟨"WIL1", "GROUP", 0, 1⟩, ⟨"AC", "ANCOL", 0, 1⟩,
        ⟨"BKS", "BEKASI", 2, 1⟩], fun _ => none, 0, 0⟩ ⟨[], []⟩
      = setStations okTx ⟨[], []⟩
          (buildStations [⟨"WIL1", "GROUP", 0, 1⟩, ⟨"AC", "ANCOL", 0, 1⟩,
            ⟨"BKS", "BEKASI", 2, 1⟩])
    ∧ (convertStation ⟨"AC", "ANCOL", 0, 1⟩).metadata.origin.daop = 1 := by
  have h := syncStations_spec
    ⟨some [⟨"WIL1", "GROUP", 0, 1⟩, ⟨"AC", "ANCOL", 0, 1⟩, ⟨"BKS", "BEKASI", 2, 1⟩],
      fun _ => none, 0, 0⟩ ⟨[], []⟩
    [⟨"WIL1", "GROUP", 0, 1⟩, ⟨"AC", "ANCOL", 0, 1⟩, ⟨"BKS", "BEKASI", 2, 1⟩] rfl
  exact ⟨h.1, h.2.2.2.1 ⟨"AC", "ANCOL", 0, 1⟩ (by decide) rfl⟩

/-- C7 counterexample: the manually-defined airport station is in every
post-sync collection, and its uid `"st_krl_bst"` is not the fixed
prefix concatenated with its id `"BST"`. -/
theorem station_uid_cex :
    bstStation ∈ buildStations [] ∧ bstStation.uid ≠ "st_krl_" ++ bstStation.id := by
  constructor
  · decide
  · decide

/-- C7 (amended): every upstream-derived station has
`uid = "st_krl_" ++ id`; the three manually-defined entries instead use
the lowercased id (`"st_krl_bst"`/`"st_krl_ckp"`/`"st_krl_pwk"` against
ids `"BST"`/`"CKP"`/`"PWK"`); and when the upstream identifiers are
pairwise distinct and avoid the three lowercase ids, the uids of the
built collection are globally unique. -/
theorem station_uid_spec (data : List UpStation)
    (h1 : (data.map UpStation.staId).Nodup)
    (h2 : ∀ u ∈ data, u.staId ≠ "bst" ∧ u.staId ≠ "ckp" ∧ u.staId ≠ "pwk") :
    (∀ u ∈ data, (convertStation u).uid = "st_krl_" ++ u.staId)
    ∧ bstStation.uid = "st_krl_" ++ "bst"
    ∧ ckpStation.uid = "st_krl_" ++ "ckp"
    ∧ pwkStation.uid = "st_krl_" ++ "pwk"
    ∧ ((buildStations data).map Station.uid).Nodup := by
  refine ⟨fun u _ => rfl, by decide, by decide, by decide, ?_⟩
  rw [buildStations, buildStations_loop]
  simp only [List.nil_append, List.map_append, List.map_map]
  set kept := data.filter (fun d => !wilStart d.staId) with hkept
  have hmap : kept.map (Station.uid ∘ convertStation)
      = (kept.map UpStation.staId).map (fun s => "st_krl_" ++ s) := by
    rw [List.map_map]
    rfl
  rw [List.nodup_append]
  refine ⟨?_, by decide, ?_⟩
  · rw [hmap]
    apply List.Nodup.map
    · intro a b hab
      exact string_append_left_cancel hab
    · exact h1.sublist ((List.filter_sublist data).map UpStation.staId)
  · intro x hx hmem
    rw [hmap] at hx
    obtain ⟨s, hs, rfl⟩ := List.mem_map.mp hx
    obtain ⟨u, hu, rfl⟩ := List.mem_map.mp hs
    have hu' : u ∈ data := List.mem_of_mem_filter hu
    obtain ⟨hb, hc, hp⟩ := h2 u hu'
    simp only [List.map_cons, List.map_nil, List.mem_cons, List.mem_singleton,
      List.not_mem_nil] at hmem
    rcases hmem with hm | hm | hm | hm
    · exact hb (string_append_left_cancel (p := "st_krl_")
        (hm.trans (by decide : bstStation.uid = "st_krl_" ++ "bst")))
    · exact hc (string_append_left_cancel (p := "st_krl_")
        (hm.trans (by decide : ckpStation.uid = "st_krl_" ++ "ckp")))
    · exact hp (string_append_left_cancel (p := "st_krl_")
        (hm.trans (by decide : pwkStation.uid = "st_krl_" ++ "pwk")))
    · exact hm

/-- C7 witness: a two-record upstream payload yields globally unique
uids of the form `"st_krl_" ++ id` for the upstream-derived entries. -/
theorem station_uid_spec_witness :
    ((buildStations [⟨"AC", "ANCOL", 1, 1⟩, ⟨"BKS", "BEKASI", 2, 1⟩]).map
      Station.uid).Nodup :=
  (station_uid_spec [⟨"AC", "ANCOL", 1, 1⟩, ⟨"BKS", "BEKASI", 2, 1⟩]
    (by decide) (by decide)).2.2.2.2

/-! ### Helper lemmas for the schedule-synchronizer claims -/

theorem normalize_not_in_table (n : String)
    (h : n ∉ (["TANJUNGPRIUK", "JAKARTAKOTA", "KAMPUNGBANDAN", "TANAHABANG",
      "PARUNGPANJANG", "BANDARASOEKARNOHATTA"] : List String)) :
    normalizeStationName n = n := by
  simp only [List.mem_cons, List.not_mem_nil, or_false, not_or] at h
  obtain ⟨h1, h2, h3, h4, h5, h6⟩ := h
  simp [normalizeStationName, h1, h2, h3, h4, h5, h6]

theorem buildNameMap_loop (stations : List Station) (acc : String → String) (n : String)
    (h : ∀ st ∈ stations, st.name ≠ n) :
    stations.foldl (fun acc st => fun m => if m = st.name then st.id else acc m) acc n
      = acc n := by
  induction stations generalizing acc with
  | nil => rfl
  | cons st rest ih =>
    rw [List.foldl_cons, ih _ (fun x hx => h x (List.mem_cons_of_mem _ hx))]
    have hne : n ≠ st.name := fun hc => h st (List.mem_cons_self _ _) hc.symm
    simp [hne]

theorem buildNameMap_miss (stations : List Station) (n : String)
    (h : ∀ st ∈ stations, st.name ≠ n) : buildNameMap stations n = "" :=
  buildNameMap_loop stations _ n h

/-- C4 counterexample: for `route_name = "A-B-C"` the claim's
destination segment — everything after the first `'-'`, i.e. `"B-C"` —
resolves to the id of the station named `"B-C"`, but the code takes
`parts[1]` of the full split, so the destination id is the id of the
station named `"B"`, and the two differ. -/
theorem route_split_cex :
    (buildSchedule (buildNameMap
        [⟨"st_krl_b", "Bid", "B", "KRL", ⟨true, ⟨1, 1⟩⟩⟩,
         ⟨"st_krl_c", "Cid", "B-C", "KRL", ⟨true, ⟨1, 1⟩⟩⟩]) "STA" 0 0
      ⟨"t1", "KA", "A-B-C", "X", "08:00", "red", "09:00"⟩).stationDestinationId = "Bid"
    ∧ buildNameMap
        [⟨"st_krl_b", "Bid", "B", "KRL", ⟨true, ⟨1, 1⟩⟩⟩,
         ⟨"st_krl_c", "Cid", "B-C", "KRL", ⟨true, ⟨1, 1⟩⟩⟩]
        (normalizeStationName "B-C") = "Cid"
    ∧ ("Bid" : String) ≠ "Cid" := by
  refine ⟨by decide, by decide, by decide⟩

/-- C4 (amended): the route name is split on `'-'`; with at least two
segments, the origin is the first segment and the destination the
second segment (text after a second `'-'` is dropped), both trimmed;
with fewer than two segments, both segments are the whole route string.
Each segment is normalized by the fixed lookup table — names not in the
table are returned unchanged, `"JAKARTAKOTA"` maps to
`"JAKARTA KOTA"` — and resolved through the name-to-id map, with the
identifier set to the empty string when the name is unresolved. -/
theorem route_resolution_spec (stations : List Station) (sid : String)
    (todayBase nowTs : Nat) (d : UpSchedule) :
    (2 ≤ (splitDash d.routeName.data).length →
      (buildSchedule (buildNameMap stations) sid todayBase nowTs d).stationOriginId
        = buildNameMap stations (normalizeStationName
            (trimChars ((splitDash d.routeName.data).getD 0 [])).asString)
      ∧ (buildSchedule (buildNameMap stations) sid todayBase nowTs d).stationDestinationId
        = buildNameMap stations (normalizeStationName
            (trimChars ((splitDash d.routeName.data).getD 1 [])).asString))
    ∧ ((splitDash d.routeName.data).length < 2 →
      (buildSchedule (buildNameMap stations) sid todayBase nowTs d).stationOriginId
        = buildNameMap stations (normalizeStationName d.routeName)
      ∧ (buildSchedule (buildNameMap stations) sid todayBase nowTs d).stationDestinationId
        = buildNameMap stations (normalizeStationName d.routeName))
    ∧ (∀ n, n ∉ (["TANJUNGPRIUK", "JAKARTAKOTA", "KAMPUNGBANDAN", "TANAHABANG",
          "PARUNGPANJANG", "BANDARASOEKARNOHATTA"] : List String) →
        normalizeStationName n = n)
    ∧ normalizeStationName "JAKARTAKOTA" = "JAKARTA KOTA"
    ∧ (∀ n, (∀ st ∈ stations, st.name ≠ n) → buildNameMap stations n = "") := by
  refine ⟨fun hlen => ?_, fun hlen => ?_, normalize_not_in_table, by decide,
    buildNameMap_miss stations⟩
  · constructor <;> simp [buildSchedule, hlen]
  · have hn : ¬ 2 ≤ (splitDash d.routeName.data).length := by omega
    constructor <;> simp [buildSchedule, hn]

/-- C4 witness: the spec scenario — `route_name = "JAKARTAKOTA-BOGOR"`
with a station named `"JAKARTA KOTA"` and no station named `"BOGOR"`
gives `station_origin_id = "JAK"` and an empty destination id. -/
theorem route_resolution_spec_witness :
    (buildSchedule (buildNameMap
        [⟨"st_krl_JAK", "JAK", "JAKARTA KOTA", "KRL", ⟨true, ⟨1, 1⟩⟩⟩]) "STA" 0 0
      ⟨"t1", "KA", "JAKARTAKOTA-BOGOR", "X", "08:00", "red", "09:00"⟩).stationOriginId
      = "JAK"
    ∧ (buildSchedule (buildNameMap
        [⟨"st_krl_JAK", "JAK", "JAKARTA KOTA", "KRL", ⟨true, ⟨1, 1⟩⟩⟩]) "STA" 0 0
      ⟨"t1", "KA", "JAKARTAKOTA-BOGOR", "X", "08:00", "red", "09:00"⟩).stationDestinationId
      = "" := by
  have h := route_resolution_spec
    [⟨"st_krl_JAK", "JAK", "JAKARTA KOTA", "KRL", ⟨true, ⟨1, 1⟩⟩⟩] "STA" 0 0
    ⟨"t1", "KA", "JAKARTAKOTA-BOGOR", "X", "08:00", "red", "09:00"⟩
  constructor
  · rw [(h.1 (by decide)).1]
    decide
  · rw [(h.1 (by decide)).2]
    decide

/-! ### Helper lemmas for the read-ordering claim -/

theorem eq_of_perm_sorted_nodup (l1 l2 : List Schedule) (hp : l1.Perm l2)
    (h1 : l1.Pairwise (fun a b => a.departsAt ≤ b.departsAt))
    (h2 : l2.Pairwise (fun a b => a.departsAt ≤ b.departsAt))
    (hk : (l1.map Schedule.departsAt).Nodup) : l1 = l2 := by
  haveI : IsAntisymm Schedule (fun a b => a.departsAt < b.departsAt ∨ a = b) := ⟨by
    rintro a b (h | h) (h' | h')
    · omega
    · exact h'.symm
    · exact h
    · exact h⟩
  apply List.eq_of_perm_of_sorted (r := fun a b => a.departsAt < b.departsAt ∨ a = b) hp
  · have hne : l1.Pairwise (fun a b => a.departsAt ≠ b.departsAt) := by
      simpa [List.Nodup, List.pairwise_map] using hk
    exact (h1.and hne).imp (fun h => Or.inl (lt_of_le_of_ne h.1 h.2))
  · have hk2 : (l2.map Schedule.departsAt).Nodup := ((hp.map _).nodup_iff).mp hk
    have hne : l2.Pairwise (fun a b => a.departsAt ≠ b.departsAt) := by
      simpa [List.Nodup, List.pairwise_map] using hk2
    exact (h2.and hne).imp (fun h => Or.inl (lt_of_le_of_ne h.1 h.2))

/-- C6: `getSchedules` and `getRoute` return exactly the matching rows
sorted by ascending departure time; and `getRoute` reproduces a train's
stop order by departure time (when stop departures are distinct) for
any permutation of the stored rows — i.e. regardless of fetch or
insertion order. -/
theorem store_read_ordering (db : StoreState) (sid tid : String) :
    ((getSchedules db sid).Pairwise (fun a b => a.departsAt ≤ b.departsAt)
      ∧ (getSchedules db sid).Perm
          (db.schedules.filter (fun r => r.stationId = sid)))
    ∧ ((getRoute db tid).Pairwise (fun a b => a.departsAt ≤ b.departsAt)
      ∧ (getRoute db tid).Perm
          (db.schedules.filter (fun r => r.trainId = tid)))
    ∧ (∀ db' : StoreState, db'.schedules.Perm db.schedules →
        ((getRoute db tid).map Schedule.departsAt).Nodup →
        getRoute db' tid = getRoute db tid) := by
  have hsortS := List.sorted_insertionSort departsLe
    (db.schedules.filter (fun r => r.stationId = sid))
  have hsortR := List.sorted_insertionSort departsLe
    (db.schedules.filter (fun r => r.trainId = tid))
  refine ⟨⟨?_, List.perm_insertionSort _ _⟩, ⟨?_, List.perm_insertionSort _ _⟩, ?_⟩
  · exact hsortS.imp (fun h => h)
  · exact hsortR.imp (fun h => h)
  · intro db' hperm hk
    have hfp : (db'.schedules.filter (fun r => r.trainId = tid)).Perm
        (db.schedules.filter (fun r => r.trainId = tid)) := hperm.filter _
    have hp : (getRoute db' tid).Perm (getRoute db tid) :=
      ((List.perm_insertionSort _ _).trans hfp).trans (List.perm_insertionSort _ _).symm
    have hsortR' := List.sorted_insertionSort departsLe
      (db'.schedules.filter (fun r => r.trainId = tid))
    apply eq_of_perm_sorted_nodup _ _ hp
    · exact hsortR'.imp (fun h => h)
    · exact hsortR.imp (fun h => h)
    · exact ((hp.map _).nodup_iff).mpr hk

/-- C6 witness: a train with stops at 08:00, 08:10, 08:25 stored in a
scrambled row order reads back in the same departure order as the
sorted storage. -/
theorem store_read_ordering_witness :
    getRoute ⟨[], [⟨"c", "C", "", "", "t1", "l", "r", 29100, 0, ⟨⟨""⟩⟩, 0⟩,
        ⟨"a", "A", "", "", "t1", "l", "r", 28800, 0, ⟨⟨""⟩⟩, 0⟩,
        ⟨"b", "B", "", "", "t1", "l", "r", 29400, 0, ⟨⟨""⟩⟩, 0⟩]⟩ "t1"
      = getRoute ⟨[], [⟨"a", "A", "", "", "t1", "l", "r", 28800, 0, ⟨⟨""⟩⟩, 0⟩,
        ⟨"b", "B", "", "", "t1", "l", "r", 29400, 0, ⟨⟨""⟩⟩, 0⟩,
        ⟨"c", "C", "", "", "t1", "l", "r", 29100, 0, ⟨⟨""⟩⟩, 0⟩]⟩ "t1" :=
  (store_read_ordering ⟨[], [⟨"a", "A", "", "", "t1", "l", "r", 28800, 0, ⟨⟨""⟩⟩, 0⟩,
      ⟨"b", "B", "", "", "t1", "l", "r", 29400, 0, ⟨⟨""⟩⟩, 0⟩,
      ⟨"c", "C", "", "", "t1", "l", "r", 29100, 0, ⟨⟨""⟩⟩, 0⟩]⟩ "X" "t1").2.2
    ⟨[], [⟨"c", "C", "", "", "t1", "l", "r", 29100, 0, ⟨⟨""⟩⟩, 0⟩,
        ⟨"a", "A", "", "", "t1", "l", "r", 28800, 0, ⟨⟨""⟩⟩, 0⟩,
        ⟨"b", "B", "", "", "t1", "l", "r", 29400, 0, ⟨⟨""⟩⟩, 0⟩]⟩
    (by decide) (by decide)

/-! ### Time rendering, for the time-parsing claim -/

/-- Render a number as two zero-padded digits. -/
def pad2 (n : Nat) : String :=
  if n < 10 then "0" ++ toString n else toString n

/-- Render an `HH:MM` time string (hour unpadded or padded, as Go's
`"15"` layout element accepts both). -/
def renderHM (h m : Nat) : String :=
  toString h ++ ":" ++ pad2 m

/-- Render an `HH:MM:SS` time string. -/
def renderHMS (h m sec : Nat) : String :=
  toString h ++ ":" ++ pad2 m ++ ":" ++ pad2 sec

/-- C8: `parseTime` tries the `HH:MM` format first (first match wins)
and otherwise `HH:MM:SS`, combining today's calendar date with the
parsed time of day; every well-formed `HH:MM` / `HH:MM:SS` string is
accepted with its clock value; a string matching neither format yields
the zero/epoch timestamp; and the enclosing schedule record is always
kept — `buildSchedules` emits one record per upstream record. -/
theorem parseTime_spec (todayBase : Nat) :
    (∀ s h m, parseHM s = some (h, m) →
        parseTime todayBase s = todayBase + h * 3600 + m * 60)
    ∧ (∀ s h m sec, parseHM s = none → parseHMS s = some (h, m, sec) →
        parseTime todayBase s = todayBase + h * 3600 + m * 60 + sec)
    ∧ (∀ s, parseHM s = none → parseHMS s = none → parseTime todayBase s = 0)
    ∧ (∀ h < 24, ∀ m < 60, parseHM (renderHM h m) = some (h, m))
    ∧ (∀ m < 60, ∀ sec < 60, parseHMS (renderHMS 23 m sec) = some (23, m, sec))
    ∧ (∀ nameMap sid nowTs data,
        (buildSchedules nameMap sid todayBase nowTs data).length = data.length) := by
  refine ⟨?_, ?_, ?_, by decide, by decide, ?_⟩
  · intro s h m hp
    simp [parseTime, hp]
  · intro s h m sec hp hps
    simp [parseTime, hp, hps]
  · intro s hp hps
    simp [parseTime, hp, hps]
  · intro nameMap sid nowTs data
    simp [buildSchedules]

/-- C8 witness: `"08:10"` parses as today's 08:10, `"8:10:05"` as
today's 08:10:05, and `"banana"` yields the zero timestamp. -/
theorem parseTime_spec_witness :
    parseTime 1000 "08:10" = 1000 + 8 * 3600 + 10 * 60
    ∧ parseTime 1000 "8:10:05" = 1000 + 8 * 3600 + 10 * 60 + 5
    ∧ parseTime 1000 "banana" = 0 :=
  ⟨(parseTime_spec 1000).1 "08:10" 8 10 (by decide),
   (parseTime_spec 1000).2.1 "8:10:05" 8 10 5 (by decide) (by decide),
   (parseTime_spec 1000).2.2.1 "banana" (by decide) (by decide)⟩

end Commuter

